import Mathlib

/-!
# Verification of the leeta location registry core

Shallow embedding of the location registry (repository + service + domain
layers of the Go source). Strings from the Go side are modelled as lists of
rune codepoints (`List Nat`), float64 coordinates and distances as `Rat`,
the store's id/timestamp assignment as a counter and logical clock in the
database state. The geography engine's distance computation is an abstract
parameter, per the spec's black-box treatment of the spatial engine.
-/

namespace Leeta

/-- Modelled from the spec: the domain error type `domain.CError` lives in a
repository file absent from the sources; its usage (`NewCError(code, msg)`,
`cerr.Code()`) and the spec's error taxonomy determine a numeric kind code
plus a message. Codes follow the HTTP kinds used throughout the handlers:
400 validation, 404 not found, 409 conflict, 500 internal. -/
structure CError where
  code : Nat
  message : String
deriving DecidableEq

/-- Modelled from the spec: `domain.ErrConflictingData`, the conflict error
returned by the store on a uniqueness violation (kind code 409, as the
service's `cerr.Code() == 409 // conflict` test requires). -/
def ErrConflictingData : CError := ⟨409, "data conflicts with existing data"⟩

/-- Modelled from the spec: `domain.ErrDataNotFound`, the not-found error
(kind code 404, as the service's `cerr.Code() == 404` test requires). -/
def ErrDataNotFound : CError := ⟨404, "data not found"⟩

/-- Modelled from the spec: `domain.ErrInternal`, the generic internal error
exposing no storage detail (kind code 500). -/
def ErrInternal : CError := ⟨500, "internal server error"⟩

/-! ## Slug normalizer

`slug.Make` from the gosimple/slug library, modelled from the spec (§4.1):
lowercases, replaces runs of non-alphanumeric characters with a single
hyphen, trims leading and trailing hyphens. Runes are codepoints. -/

/-- Is the rune a lowercase ASCII letter or a digit? -/
def isLowerAlnum (c : Nat) : Bool :=
  (97 ≤ c && c ≤ 122) || (48 ≤ c && c ≤ 57)

/-- Is the rune an uppercase ASCII letter? -/
def isUpperAlpha (c : Nat) : Bool :=
  65 ≤ c && c ≤ 90

/-- ASCII lowercasing of a rune. -/
def toLowerRune (c : Nat) : Nat :=
  if isUpperAlpha c then c + 32 else c

/-- One character of the slug transform: alphanumerics are lowercased, every
other rune becomes a hyphen (codepoint 45). -/
def slugChar (c : Nat) : Nat :=
  if isLowerAlnum c || isUpperAlpha c then toLowerRune c else 45

/-- Collapse every run of consecutive hyphens to a single hyphen. -/
def collapseHyphens : List Nat → List Nat
  | [] => []
  | [c] => [c]
  | c1 :: c2 :: rest =>
    if c1 = 45 ∧ c2 = 45 then collapseHyphens (c2 :: rest)
    else c1 :: collapseHyphens (c2 :: rest)

/-- Remove leading and trailing hyphens. -/
def trimHyphens (l : List Nat) : List Nat :=
  ((l.dropWhile (· == 45)).reverse.dropWhile (· == 45)).reverse

/-- Modelled from the spec: `slug.Make` (gosimple/slug, vendored library whose
source is not part of the repository), per §4.1: lowercase, replace runs of
non-alphanumeric runes by a single hyphen, trim edge hyphens. -/
def slugify (l : List Nat) : List Nat :=
  trimHyphens (collapseHyphens (l.map slugChar))

/-! ## Domain data model (`internal/core/domain/location.go`) -/

/-- `domain.Location`: one row of the `locations` table. `id` and
`created_at` are assigned by the store at insertion. -/
structure Location where
  id : Nat
  name : List Nat
  slug : List Nat
  latitude : Rat
  longitude : Rat
  createdAt : Nat
deriving DecidableEq

/-- `domain.RegisterLocationRequest` with its `validate` tags:
`Name` is `required`, `Latitude` is `required,min=-90,max=90`,
`Longitude` is `required,min=-180,max=180`. -/
structure RegisterLocationRequest where
  name : List Nat
  latitude : Rat
  longitude : Rat
deriving DecidableEq

/-- `domain.NearestLocation`: a Location plus the computed distance in
meters. -/
structure NearestLocation where
  location : Location
  distance : Rat
deriving DecidableEq

/-- The database state behind the `locations` table: the rows, the id
counter and the insertion clock used for `created_at`. -/
structure DBState where
  rows : List Location
  nextId : Nat
  now : Nat
deriving DecidableEq

/-! ## Repository layer (`repository.LocationRepository`) -/

/-- `LocationRepository.CreateLocation`: INSERT of
`(name, slug.Make(name), latitude, longitude, geo)` RETURNING the row with
its store-assigned `id` and `created_at`. The uniqueness constraints on
`name` and `slug` make the insert fail with code 23505, surfaced as
`domain.ErrConflictingData`, when some row already holds the same name or
the same slug. -/
def createLocation (s : DBState) (name : List Nat) (lat lon : Rat) :
    DBState × Except CError Location :=
  if ∃ r ∈ s.rows, r.name = name ∨ r.slug = slugify name then
    (s, .error ErrConflictingData)
  else
    let row : Location :=
      { id := s.nextId, name := name, slug := slugify name,
        latitude := lat, longitude := lon, createdAt := s.now }
    ({ rows := s.rows ++ [row], nextId := s.nextId + 1, now := s.now + 1 },
      .ok row)

/-- `LocationRepository.GetLocationByName`: SELECT ... WHERE
`name = key OR slug = slug.Make(key)` LIMIT 1; no row yields
`domain.ErrDataNotFound`. -/
def getLocationByName (s : DBState) (key : List Nat) : Except CError Location :=
  match s.rows.find? (fun r => decide (r.name = key ∨ r.slug = slugify key)) with
  | some r => .ok r
  | none => .error ErrDataNotFound

/-- The ORDER BY relation of `ListLocations`: `created_at DESC`. -/
def createdDesc (a b : Location) : Prop := b.createdAt ≤ a.createdAt

instance : DecidableRel createdDesc := fun a b => Nat.decLe b.createdAt a.createdAt

instance : IsTotal Location createdDesc :=
  ⟨fun a b => Nat.le_total b.createdAt a.createdAt⟩

instance : IsTrans Location createdDesc :=
  ⟨fun _ _ _ h1 h2 => Nat.le_trans h2 h1⟩

/-- `LocationRepository.ListLocations`: SELECT every row ORDER BY
`created_at DESC`; never an error on the query's deterministic semantics. -/
def listLocations (s : DBState) : Except CError (List Location) :=
  .ok (List.insertionSort createdDesc s.rows)

/-- First row minimizing the measure `f`, as `ORDER BY distance LIMIT 1`
returns (ties broken by the scan order). -/
def minByDist (f : Location → Rat) : List Location → Option Location
  | [] => none
  | r :: rest =>
    match minByDist f rest with
    | none => some r
    | some m => some (if f r ≤ f m then r else m)

/-- `LocationRepository.GetNearestLocation`: SELECT every row with
`ST_Distance(geo, query point)` as distance, ORDER BY distance LIMIT 1; an
empty table yields `domain.ErrDataNotFound`. The spatial engine's distance
computation `d` (query latitude, query longitude, row latitude, row
longitude, in that argument order) is a black-box parameter. -/
def getNearestLocation (d : Rat → Rat → Rat → Rat → Rat) (s : DBState)
    (lat lon : Rat) : Except CError NearestLocation :=
  match minByDist (fun r => d lat lon r.latitude r.longitude) s.rows with
  | none => .error ErrDataNotFound
  | some m => .ok ⟨m, d lat lon m.latitude m.longitude⟩

/-! ## Validation (`handler.RegisterLocation` with go-playground/validator)

The handler runs `validate.Struct` on the request before calling the
service. The validator library (not part of the repository) checks, per its
documented semantics for the tags on `RegisterLocationRequest`: `required`
fails when a field holds its zero value (empty string, float 0.0), `min` and
`max` compare numerically. On failure the handler answers 400 with the
failed field in the message, never touching the service or the store. -/

/-- The validator's verdict on a `RegisterLocationRequest`: the first failed
tag's message, or `none` when every tag passes. -/
def validateRegisterRequest (r : RegisterLocationRequest) : Option String :=
  if r.name = [] then some "Name failed on required"
  else if r.latitude = 0 then some "Latitude failed on required"
  else if r.latitude < -90 then some "Latitude failed on min"
  else if 90 < r.latitude then some "Latitude failed on max"
  else if r.longitude = 0 then some "Longitude failed on required"
  else if r.longitude < -180 then some "Longitude failed on min"
  else if 180 < r.longitude then some "Longitude failed on max"
  else none

/-! ## Service layer (`service.LocationService`) -/

/-- `LocationService.RegisterLocation`: delegates to the repository's
`CreateLocation`; on a code-409 error rewrites the message to
"location already exists" keeping the code, on any other error returns
`domain.ErrInternal`. -/
def registerLocationService (s : DBState) (req : RegisterLocationRequest) :
    DBState × Except CError Location :=
  match createLocation s req.name req.latitude req.longitude with
  | (s1, .ok loc) => (s1, .ok loc)
  | (s1, .error cerr) =>
    if cerr.code = 409 then (s1, .error ⟨cerr.code, "location already exists"⟩)
    else (s1, .error ErrInternal)

/-- The full register pipeline as the HTTP handler runs it: validate the
request (answering a 400 validation error without calling the service),
then `LocationService.RegisterLocation`. -/
def registerLocationHandler (s : DBState) (req : RegisterLocationRequest) :
    DBState × Except CError Location :=
  match validateRegisterRequest req with
  | some msg => (s, .error ⟨400, msg⟩)
  | none => registerLocationService s req

/-- `LocationService.GetLocation`: passes the repository's answer through,
downgrading only code-500 errors to `domain.ErrInternal`. -/
def getLocationService (s : DBState) (name : List Nat) : Except CError Location :=
  match getLocationByName s name with
  | .ok loc => .ok loc
  | .error cerr => if cerr.code = 500 then .error ErrInternal else .error cerr

/-- `LocationService.GetNearestLocation`: delegates to the repository; on a
code-404 error rewrites the message to "no location found" keeping the
code, on any other error returns `domain.ErrInternal`. -/
def getNearestLocationService (d : Rat → Rat → Rat → Rat → Rat) (s : DBState)
    (lat lon : Rat) : Except CError NearestLocation :=
  match getNearestLocation d s lat lon with
  | .ok n => .ok n
  | .error cerr =>
    if cerr.code = 404 then .error ⟨cerr.code, "no location found"⟩
    else .error ErrInternal

/-! ## Distance presentation (`NearestLocation.MarshalJSON`) -/

/-- Round-half-to-even of a rational, as Go's `fmt` rounds. -/
def roundHalfEven (q : Rat) : Int :=
  let f := ⌊q⌋
  if q - f < 1/2 then f
  else if 1/2 < q - f then f + 1
  else if f % 2 = 0 then f else f + 1

/-- Two-digit zero-padding of the fractional part. -/
def pad2 (n : Nat) : String :=
  if n < 10 then "0" ++ toString n else toString n

/-- Go's `%.2f` on the modelled (rational) distance value. -/
def fmtF2 (q : Rat) : String :=
  let m := roundHalfEven (100 * q)
  let sign := if m < 0 then "-" else ""
  sign ++ toString (m.natAbs / 100) ++ "." ++ pad2 (m.natAbs % 100)

/-- The distance string `NearestLocation.MarshalJSON` embeds: `"%.2f meters"`
of the raw value, overridden by `"%.2f kilometers"` of the value divided by
1000 when the value is at least 1000. -/
def marshalDistanceString (dist : Rat) : String :=
  let distance := fmtF2 dist ++ " meters"
  if 1000 ≤ dist then fmtF2 (dist / 1000) ++ " kilometers" else distance

/-- A rune a slug may contain: lowercase alphanumeric or hyphen. -/
def SlugRune (c : Nat) : Prop := isLowerAlnum c = true ∨ c = 45

/-- Adjacent runes are not both hyphens. -/
def NotBothHyphen (a b : Nat) : Prop := ¬(a = 45 ∧ b = 45)

/-! ## Properties of the slug normalizer -/

theorem slugChar_slugRune (c : Nat) : SlugRune (slugChar c) := by
  unfold SlugRune slugChar toLowerRune isLowerAlnum isUpperAlpha
  split_ifs with h1 h2 <;>
    simp only [Bool.or_eq_true, Bool.and_eq_true, decide_eq_true_eq] at * <;>
    first | omega | tauto

theorem slugChar_fix {c : Nat} (h : SlugRune c) : slugChar c = c := by
  rcases h with h | h
  · have hu : isUpperAlpha c = false := by
      rw [Bool.eq_false_iff]
      intro hcontra
      unfold isLowerAlnum at h
      unfold isUpperAlpha at hcontra
      simp only [Bool.or_eq_true, Bool.and_eq_true, decide_eq_true_eq] at h hcontra
      omega
    unfold slugChar toLowerRune
    simp [h, hu]
  · subst h; decide

theorem map_slugChar_fix {l : List Nat} (h : ∀ c ∈ l, SlugRune c) :
    l.map slugChar = l := by
  conv_rhs => rw [← List.map_id l]
  exact List.map_congr_left fun a ha => slugChar_fix (h a ha)

theorem mem_collapseHyphens {c : Nat} :
    ∀ (l : List Nat), c ∈ collapseHyphens l → c ∈ l
  | [] => by simp [collapseHyphens]
  | [a] => by simp [collapseHyphens]
  | a :: b :: r => by
    simp only [collapseHyphens]
    split
    · intro h
      exact List.mem_cons_of_mem _ (mem_collapseHyphens (b :: r) h)
    · intro h
      rcases List.mem_cons.mp h with h | h
      · exact h ▸ List.mem_cons_self a _
      · exact List.mem_cons_of_mem _ (mem_collapseHyphens (b :: r) h)

theorem collapseHyphens_head_hyphen :
    ∀ (b : Nat) (r : List Nat),
      (collapseHyphens (b :: r)).head? = some 45 → b = 45
  | b, [] => by
    intro h
    simpa [collapseHyphens] using h
  | b, c :: r => by
    simp only [collapseHyphens]
    split
    · next hcond => intro _; exact hcond.1
    · intro h
      simpa using h

theorem chain'_collapseHyphens :
    ∀ (l : List Nat), List.Chain' NotBothHyphen (collapseHyphens l)
  | [] => by simp [collapseHyphens]
  | [a] => by simp [collapseHyphens]
  | a :: b :: r => by
    simp only [collapseHyphens]
    split
    · exact chain'_collapseHyphens (b :: r)
    · next hcond =>
      rw [List.chain'_cons']
      refine ⟨?_, chain'_collapseHyphens (b :: r)⟩
      intro y hy
      rintro ⟨ha, hy45⟩
      exact hcond ⟨ha, collapseHyphens_head_hyphen b r (by rw [← hy45]; exact hy)⟩

theorem collapseHyphens_eq_self :
    ∀ {l : List Nat}, List.Chain' NotBothHyphen l → collapseHyphens l = l
  | [], _ => rfl
  | [_], _ => rfl
  | a :: b :: r, h => by
    rw [List.chain'_cons] at h
    simp only [collapseHyphens]
    rw [if_neg h.1, collapseHyphens_eq_self h.2]

theorem mem_trimHyphens {c : Nat} {l : List Nat} (h : c ∈ trimHyphens l) :
    c ∈ l := by
  unfold trimHyphens at h
  have h1 := List.mem_reverse.mp h
  have h2 := List.Sublist.mem h1 (List.dropWhile_sublist _)
  have h3 := List.mem_reverse.mp h2
  exact List.Sublist.mem h3 (List.dropWhile_sublist _)

theorem chain'_NBH_reverse {l : List Nat}
    (h : List.Chain' NotBothHyphen l) :
    List.Chain' NotBothHyphen l.reverse :=
  List.chain'_reverse.mpr (h.imp fun _ _ hab => fun ⟨hb, ha⟩ => hab ⟨ha, hb⟩)

theorem chain'_trimHyphens {l : List Nat}
    (h : List.Chain' NotBothHyphen l) :
    List.Chain' NotBothHyphen (trimHyphens l) := by
  unfold trimHyphens
  exact chain'_NBH_reverse
    ((chain'_NBH_reverse (h.suffix (List.dropWhile_suffix _))).suffix
      (List.dropWhile_suffix _))

theorem trimHyphens_getLast {l : List Nat} {h : Nat}
    (hh : (trimHyphens l).getLast? = some h) : h ≠ 45 := by
  unfold trimHyphens at hh
  rw [List.getLast?_reverse] at hh
  have h2 := List.head?_dropWhile_not (fun c => c == 45) (l.dropWhile (· == 45)).reverse
  rw [hh] at h2
  simpa using h2

theorem trimHyphens_head {l : List Nat} {h : Nat}
    (hh : (trimHyphens l).head? = some h) : h ≠ 45 := by
  unfold trimHyphens at hh
  rw [List.head?_reverse] at hh
  obtain ⟨t, ht⟩ := List.dropWhile_suffix (l := (l.dropWhile (· == 45)).reverse) (· == 45)
  have h1 : ((l.dropWhile (· == 45)).reverse).getLast? = some h := by
    rw [← ht, List.getLast?_append, hh]
    rfl
  rw [List.getLast?_reverse] at h1
  have h2 := List.head?_dropWhile_not (fun c => c == 45) l
  rw [h1] at h2
  simpa using h2

theorem dropWhile_hyphen_eq_self {l : List Nat}
    (h : ∀ x, l.head? = some x → x ≠ 45) : l.dropWhile (· == 45) = l := by
  cases l with
  | nil => rfl
  | cons a t =>
    have ha : a ≠ 45 := h a rfl
    rw [List.dropWhile_cons_of_neg (by simpa using ha)]

theorem trimHyphens_eq_self {l : List Nat}
    (h1 : ∀ x, l.head? = some x → x ≠ 45)
    (h2 : ∀ x, l.getLast? = some x → x ≠ 45) : trimHyphens l = l := by
  unfold trimHyphens
  rw [dropWhile_hyphen_eq_self h1]
  rw [dropWhile_hyphen_eq_self (by simpa using h2)]
  exact List.reverse_reverse l

theorem slugify_chars {x : List Nat} : ∀ c ∈ slugify x, SlugRune c := by
  intro c hc
  have h1 : c ∈ collapseHyphens (x.map slugChar) := mem_trimHyphens hc
  have h2 : c ∈ x.map slugChar := mem_collapseHyphens _ h1
  obtain ⟨a, _, rfl⟩ := List.mem_map.mp h2
  exact slugChar_slugRune a

theorem chain'_slugify (x : List Nat) :
    List.Chain' NotBothHyphen (slugify x) :=
  chain'_trimHyphens (chain'_collapseHyphens _)

theorem slugify_idem (x : List Nat) : slugify (slugify x) = slugify x := by
  show trimHyphens (collapseHyphens (List.map slugChar (slugify x))) = slugify x
  rw [map_slugChar_fix slugify_chars]
  rw [collapseHyphens_eq_self (chain'_slugify x)]
  exact trimHyphens_eq_self (fun _ h => trimHyphens_head h)
    (fun _ h => trimHyphens_getLast h)

/-! ## Properties of the nearest-row selection -/

theorem minByDist_eq_none {f : Location → Rat} :
    ∀ {l : List Location}, minByDist f l = none → l = []
  | [], _ => rfl
  | r :: rest, h => by
    simp only [minByDist] at h
    split at h <;> simp_all

theorem minByDist_spec (f : Location → Rat) :
    ∀ (l : List Location), l ≠ [] →
      ∃ m, minByDist f l = some m ∧ m ∈ l ∧ ∀ x ∈ l, f m ≤ f x
  | [], h => absurd rfl h
  | r :: rest, _ => by
    cases hm : minByDist f rest with
    | none =>
      have hrest : rest = [] := minByDist_eq_none hm
      subst hrest
      refine ⟨r, rfl, List.mem_cons_self r [], ?_⟩
      intro x hx
      rcases List.mem_cons.mp hx with rfl | hx
      · exact le_refl _
      · cases hx
    | some m =>
      have hrest : rest ≠ [] := by
        intro e; rw [e] at hm; cases hm
      obtain ⟨m', hm', hmem, hmin⟩ := minByDist_spec f rest hrest
      rw [hm] at hm'
      injection hm' with hm'
      subst hm'
      refine ⟨if f r ≤ f m then r else m, ?_, ?_, ?_⟩
      · simp only [minByDist, hm]
      · split
        · exact List.mem_cons_self r rest
        · exact List.mem_cons_of_mem _ hmem
      · intro x hx
        rcases List.mem_cons.mp hx with rfl | hx
        · split
          · exact le_refl _
          · next hle => exact le_of_lt (lt_of_not_le hle)
        · split
          · next hle => exact le_trans hle (hmin x hx)
          · exact hmin x hx

/-! ## A uniquely matched row is the one `find?` returns -/

theorem find?_eq_some_of_unique {α : Type} {p : α → Bool} :
    ∀ {l : List α} {a : α}, a ∈ l → (∀ x ∈ l, p x = true ↔ x = a) →
      l.find? p = some a := by
  intro l
  induction l with
  | nil => intro a ha _; cases ha
  | cons b t ih =>
    intro a ha hp
    by_cases hb : p b = true
    · rw [List.find?_cons_of_pos _ hb]
      rw [(hp b (List.mem_cons_self b t)).mp hb]
    · rw [List.find?_cons_of_neg _ (by simpa using hb)]
      have hba : b ≠ a := fun e => hb ((hp b (List.mem_cons_self b t)).mpr e)
      have ha' : a ∈ t := by
        rcases List.mem_cons.mp ha with rfl | h
        · exact absurd rfl hba
        · exact h
      exact ih ha' fun x hx => hp x (List.mem_cons_of_mem _ hx)

/-! ## Claim theorems -/

/-- C1: every register request whose latitude is outside [-90, 90], or whose
longitude is outside [-180, 180], or whose name is empty, fails validation
and the register pipeline returns a 400 validation error with the database
state untouched (the store's create is never reached); the error kind is
neither the conflict kind (409) nor the internal kind (500). -/
theorem register_out_of_range_is_validation_error
    (s : DBState) (req : RegisterLocationRequest)
    (h : req.latitude < -90 ∨ 90 < req.latitude ∨
         req.longitude < -180 ∨ 180 < req.longitude ∨ req.name = []) :
    ∃ e : CError, (∃ msg, validateRegisterRequest req = some msg) ∧
      registerLocationHandler s req = (s, .error e) ∧
      e.code = 400 ∧ e.code ≠ ErrConflictingData.code ∧
      e.code ≠ ErrInternal.code := by
  have hval : ∃ msg, validateRegisterRequest req = some msg := by
    unfold validateRegisterRequest
    split_ifs with h1 h2 h3 h4 h5 h6 h7 <;> try exact ⟨_, rfl⟩
    rcases h with h | h | h | h | h
    · exact absurd h h3
    · exact absurd h h4
    · exact absurd h h6
    · exact absurd h h7
    · exact absurd h h1
  obtain ⟨msg, hmsg⟩ := hval
  refine ⟨⟨400, msg⟩, ⟨msg, hmsg⟩, ?_, rfl, ?_, ?_⟩
  · unfold registerLocationHandler
    rw [hmsg]
  · show (400 : Nat) ≠ 409
    decide
  · show (400 : Nat) ≠ 500
    decide

/-- C1 witness: a register request with latitude 100.0 is answered with a
400 validation error, the state untouched. -/
theorem register_out_of_range_witness :
    ∃ e : CError,
      (∃ msg, validateRegisterRequest ⟨[116], 100, -74⟩ = some msg) ∧
      registerLocationHandler ⟨[], 0, 0⟩ ⟨[116], 100, -74⟩ =
        (⟨[], 0, 0⟩, .error e) ∧
      e.code = 400 ∧ e.code ≠ ErrConflictingData.code ∧
      e.code ≠ ErrInternal.code :=
  register_out_of_range_is_validation_error ⟨[], 0, 0⟩ ⟨[116], 100, -74⟩
    (Or.inr (Or.inl (by norm_num)))

/-- C2: a register request with latitude exactly 0 or longitude exactly 0 is
rejected with a 400 validation error at the public interface (the validator
treats the float zero value as a missing `required` field), the state
untouched, although 0 is inside the documented coordinate ranges. -/
theorem register_zero_coordinate_rejected
    (s : DBState) (req : RegisterLocationRequest)
    (h : req.latitude = 0 ∨ req.longitude = 0) :
    ∃ e : CError, (∃ msg, validateRegisterRequest req = some msg) ∧
      registerLocationHandler s req = (s, .error e) ∧ e.code = 400 := by
  have hval : ∃ msg, validateRegisterRequest req = some msg := by
    unfold validateRegisterRequest
    split_ifs with h1 h2 h3 h4 h5 h6 h7 <;> try exact ⟨_, rfl⟩
    rcases h with h | h
    · exact absurd h h2
    · exact absurd h h5
  obtain ⟨msg, hmsg⟩ := hval
  refine ⟨⟨400, msg⟩, ⟨msg, hmsg⟩, ?_, rfl⟩
  unfold registerLocationHandler
  rw [hmsg]

/-- C2 witness: registering a point on the equator (latitude 0, longitude
10, non-empty name) is rejected with a 400 validation error. -/
theorem register_zero_coordinate_witness :
    ∃ e : CError,
      (∃ msg, validateRegisterRequest ⟨[101], 0, 10⟩ = some msg) ∧
      registerLocationHandler ⟨[], 0, 0⟩ ⟨[101], 0, 10⟩ =
        (⟨[], 0, 0⟩, .error e) ∧ e.code = 400 :=
  register_zero_coordinate_rejected ⟨[], 0, 0⟩ ⟨[101], 0, 10⟩ (Or.inl rfl)

/-- C5: on an empty store the repository's nearest query returns
`ErrDataNotFound`, and the service rewrites only its message to
"no location found", keeping the 404 not-found kind. -/
theorem nearest_on_empty_store_not_found
    (d : Rat → Rat → Rat → Rat → Rat) (s : DBState) (lat lon : Rat)
    (h : s.rows = []) :
    getNearestLocation d s lat lon = .error ErrDataNotFound ∧
    getNearestLocationService d s lat lon =
      .error ⟨ErrDataNotFound.code, "no location found"⟩ ∧
    ErrDataNotFound.code = 404 := by
  have h1 : getNearestLocation d s lat lon = .error ErrDataNotFound := by
    unfold getNearestLocation
    rw [h]
    rfl
  refine ⟨h1, ?_, rfl⟩
  unfold getNearestLocationService
  rw [h1]
  rfl

/-- C5 witness: the concrete empty store answers the nearest query with the
404 error rewritten to "no location found". -/
theorem nearest_on_empty_store_witness :
    getNearestLocation (fun a b u v => (a - u) ^ 2 + (b - v) ^ 2)
        ⟨[], 0, 0⟩ 40 (-74) = .error ErrDataNotFound ∧
    getNearestLocationService (fun a b u v => (a - u) ^ 2 + (b - v) ^ 2)
        ⟨[], 0, 0⟩ 40 (-74) =
      .error ⟨ErrDataNotFound.code, "no location found"⟩ ∧
    ErrDataNotFound.code = 404 :=
  nearest_on_empty_store_not_found _ ⟨[], 0, 0⟩ 40 (-74) rfl

/-- C8: `ListLocations` returns the stored rows ordered newest-created
first (a permutation of the rows sorted by descending `created_at`), and on
an empty store it returns the empty sequence, not an error. -/
theorem list_locations_newest_first (s : DBState) :
    ∃ l, listLocations s = .ok l ∧ List.Perm l s.rows ∧
      List.Sorted createdDesc l ∧ (s.rows = [] → l = []) := by
  refine ⟨List.insertionSort createdDesc s.rows, rfl,
    List.perm_insertionSort createdDesc s.rows,
    List.sorted_insertionSort createdDesc s.rows, ?_⟩
  intro h
  rw [h]
  rfl

/-- C8 witness: the empty store lists the empty sequence successfully. -/
theorem list_locations_empty_witness :
    ∃ l, listLocations ⟨[], 0, 0⟩ = .ok l ∧ List.Perm l [] ∧
      List.Sorted createdDesc l ∧ (([] : List Location) = [] → l = []) :=
  list_locations_newest_first ⟨[], 0, 0⟩

/-- C9: the distance presentation renders `"%.2f kilometers"` of the value
divided by 1000 whenever the value in meters is at least 1000 (so exactly
1000 gets the kilometers suffix), and `"%.2f meters"` of the raw value
otherwise. -/
theorem distance_rendering_policy (dist : Rat) :
    (1000 ≤ dist →
      marshalDistanceString dist = fmtF2 (dist / 1000) ++ " kilometers") ∧
    (dist < 1000 →
      marshalDistanceString dist = fmtF2 dist ++ " meters") := by
  constructor <;> intro h <;> simp only [marshalDistanceString]
  · rw [if_pos h]
  · rw [if_neg (not_le.mpr h)]

/-- C9 witness: exactly 1000 meters renders as "1.00 kilometers", and 999.9
meters renders with the meters suffix. -/
theorem distance_rendering_witness :
    marshalDistanceString 1000 = fmtF2 (1000 / 1000) ++ " kilometers" ∧
    marshalDistanceString (9999 / 10) = fmtF2 (9999 / 10) ++ " meters" :=
  ⟨(distance_rendering_policy 1000).1 (by norm_num),
   (distance_rendering_policy (9999 / 10)).2 (by norm_num)⟩

/-- C10: the slug normalizer is a total function on rune strings and is
idempotent: slugifying an already slugified string changes nothing. -/
theorem slugify_idempotent (x : List Nat) :
    slugify (slugify x) = slugify x :=
  slugify_idem x

/-- C3: registering the same valid request twice against a store holding no
conflicting row succeeds exactly once; the second call hits the store's
uniqueness violation (on name or slug) and the service answers a conflict
error of the unchanged 409 kind whose message was rewritten to
"location already exists". -/
theorem register_twice_conflicts
    (s : DBState) (req : RegisterLocationRequest)
    (hv : validateRegisterRequest req = none)
    (hfresh : ∀ r ∈ s.rows, r.name ≠ req.name ∧ r.slug ≠ slugify req.name) :
    ∃ loc s1, registerLocationHandler s req = (s1, .ok loc) ∧
      ∃ e, registerLocationHandler s1 req = (s1, .error e) ∧
        e.code = ErrConflictingData.code ∧
        e.message = "location already exists" := by
  have hcond : ¬ ∃ r ∈ s.rows, r.name = req.name ∨ r.slug = slugify req.name := by
    rintro ⟨r, hr, hcase | hcase⟩
    · exact (hfresh r hr).1 hcase
    · exact (hfresh r hr).2 hcase
  set loc : Location :=
    ⟨s.nextId, req.name, slugify req.name, req.latitude, req.longitude, s.now⟩
    with hloc
  set s1 : DBState := ⟨s.rows ++ [loc], s.nextId + 1, s.now + 1⟩ with hs1
  have hc1 : createLocation s req.name req.latitude req.longitude =
      (s1, .ok loc) := by
    unfold createLocation
    rw [if_neg hcond]
  have hreg1 : registerLocationHandler s req = (s1, .ok loc) := by
    unfold registerLocationHandler
    rw [hv]
    show registerLocationService s req = (s1, .ok loc)
    unfold registerLocationService
    rw [hc1]
  have hcond2 : ∃ r ∈ s1.rows, r.name = req.name ∨ r.slug = slugify req.name :=
    ⟨loc, by simp [hs1], Or.inl rfl⟩
  have hc2 : createLocation s1 req.name req.latitude req.longitude =
      (s1, .error ErrConflictingData) := by
    unfold createLocation
    rw [if_pos hcond2]
  have hreg2 : registerLocationHandler s1 req =
      (s1, .error ⟨409, "location already exists"⟩) := by
    unfold registerLocationHandler
    rw [hv]
    show registerLocationService s1 req = _
    unfold registerLocationService
    rw [hc2]
    rfl
  exact ⟨loc, s1, hreg1, ⟨409, "location already exists"⟩, hreg2, rfl, rfl⟩

/-- C3 witness: against the empty store, registering the same concrete
request twice succeeds once and then yields the 409 conflict with message
"location already exists". -/
theorem register_twice_witness :
    ∃ loc s1, registerLocationHandler ⟨[], 0, 0⟩ ⟨[97], 10, 20⟩ =
        (s1, .ok loc) ∧
      ∃ e, registerLocationHandler s1 ⟨[97], 10, 20⟩ = (s1, .error e) ∧
        e.code = ErrConflictingData.code ∧
        e.message = "location already exists" :=
  register_twice_conflicts ⟨[], 0, 0⟩ ⟨[97], 10, 20⟩ (by decide) (by simp)

/-- C4: for a non-empty store and any query coordinate, the nearest query
returns a stored row carrying exactly the engine-computed distance from the
query point to that row, minimal among all stored rows; with a non-negative
distance function the attached distance is non-negative, and a store holding
exactly one row returns that row. -/
theorem nearest_minimizes_distance
    (d : Rat → Rat → Rat → Rat → Rat) (hd : ∀ a b u v, 0 ≤ d a b u v)
    (s : DBState) (lat lon : Rat) (hne : s.rows ≠ []) :
    ∃ n : NearestLocation, getNearestLocation d s lat lon = .ok n ∧
      n.location ∈ s.rows ∧
      n.distance = d lat lon n.location.latitude n.location.longitude ∧
      (∀ r ∈ s.rows, n.distance ≤ d lat lon r.latitude r.longitude) ∧
      0 ≤ n.distance ∧
      ∀ r, s.rows = [r] → n.location = r := by
  obtain ⟨m, hm, hmem, hmin⟩ :=
    minByDist_spec (fun r => d lat lon r.latitude r.longitude) s.rows hne
  refine ⟨⟨m, d lat lon m.latitude m.longitude⟩, ?_, hmem, rfl, hmin,
    hd _ _ _ _, ?_⟩
  · unfold getNearestLocation
    rw [hm]
  · intro r hr
    rw [hr] at hmem
    simpa using hmem

/-- C4 witness: with a concrete non-negative distance function and a store
holding exactly one row, the nearest query at a concrete coordinate returns
that row with its non-negative minimal distance attached. -/
theorem nearest_minimizes_witness :
    ∃ n : NearestLocation,
      getNearestLocation (fun a b u v => (a - u) ^ 2 + (b - v) ^ 2)
          ⟨[⟨0, [110], [110], 40, -74, 0⟩], 1, 1⟩ 41 (-73) = .ok n ∧
      n.location ∈ [(⟨0, [110], [110], 40, -74, 0⟩ : Location)] ∧
      n.distance = (41 - n.location.latitude) ^ 2 +
        (-73 - n.location.longitude) ^ 2 ∧
      (∀ r ∈ [(⟨0, [110], [110], 40, -74, 0⟩ : Location)],
        n.distance ≤ (41 - r.latitude) ^ 2 + (-73 - r.longitude) ^ 2) ∧
      0 ≤ n.distance ∧
      ∀ r, [(⟨0, [110], [110], 40, -74, 0⟩ : Location)] = [r] →
        n.location = r :=
  nearest_minimizes_distance _ (by intro a b u v; positivity)
    ⟨[⟨0, [110], [110], 40, -74, 0⟩], 1, 1⟩ 41 (-73) (by simp)

/-- C6: a successful register of a valid request followed by a get with the
registered name returns the created row: its name and coordinates match the
request, its slug is the slugified name, its `created_at` is the store's
insertion clock, and its id differs from every pre-existing row's id. -/
theorem register_then_get_matches
    (s : DBState) (req : RegisterLocationRequest)
    (hv : validateRegisterRequest req = none)
    (hfresh : ∀ r ∈ s.rows, r.name ≠ req.name ∧ r.slug ≠ slugify req.name)
    (hids : ∀ r ∈ s.rows, r.id < s.nextId) :
    ∃ loc s1, registerLocationHandler s req = (s1, .ok loc) ∧
      getLocationByName s1 req.name = .ok loc ∧
      loc.name = req.name ∧ loc.latitude = req.latitude ∧
      loc.longitude = req.longitude ∧ loc.slug = slugify req.name ∧
      loc.createdAt = s.now ∧ ∀ r ∈ s.rows, r.id ≠ loc.id := by
  have hcond : ¬ ∃ r ∈ s.rows, r.name = req.name ∨ r.slug = slugify req.name := by
    rintro ⟨r, hr, hcase | hcase⟩
    · exact (hfresh r hr).1 hcase
    · exact (hfresh r hr).2 hcase
  set loc : Location :=
    ⟨s.nextId, req.name, slugify req.name, req.latitude, req.longitude, s.now⟩
    with hloc
  set s1 : DBState := ⟨s.rows ++ [loc], s.nextId + 1, s.now + 1⟩ with hs1
  have hc1 : createLocation s req.name req.latitude req.longitude =
      (s1, .ok loc) := by
    unfold createLocation
    rw [if_neg hcond]
  have hreg1 : registerLocationHandler s req = (s1, .ok loc) := by
    unfold registerLocationHandler
    rw [hv]
    show registerLocationService s req = (s1, .ok loc)
    unfold registerLocationService
    rw [hc1]
  have hget : getLocationByName s1 req.name = .ok loc := by
    unfold getLocationByName
    have hnone : s.rows.find?
        (fun r => decide (r.name = req.name ∨ r.slug = slugify req.name)) =
        none := by
      rw [List.find?_eq_none]
      intro x hx
      simp only [decide_eq_true_eq]
      rintro (hn | hs)
      · exact (hfresh x hx).1 hn
      · exact (hfresh x hx).2 hs
    have hone : [loc].find?
        (fun r => decide (r.name = req.name ∨ r.slug = slugify req.name)) =
        some loc :=
      List.find?_cons_of_pos _ (decide_eq_true (Or.inl rfl))
    have hfind : List.find?
        (fun r => decide (r.name = req.name ∨ r.slug = slugify req.name))
        s1.rows = some loc := by
      show List.find? _ (s.rows ++ [loc]) = some loc
      rw [List.find?_append, hnone, hone]
      rfl
    rw [hfind]
  refine ⟨loc, s1, hreg1, hget, rfl, rfl, rfl, rfl, rfl, ?_⟩
  intro r hr
  exact Nat.ne_of_lt (hids r hr)

/-- C6 witness: registering a concrete valid request against the empty
store and getting it back by name returns the row with matching fields,
slugified slug, fresh id and the store's insertion timestamp. -/
theorem register_then_get_witness :
    ∃ loc s1, registerLocationHandler ⟨[], 0, 0⟩ ⟨[97, 32, 98], 10, 20⟩ =
        (s1, .ok loc) ∧
      getLocationByName s1 [97, 32, 98] = .ok loc ∧
      loc.name = [97, 32, 98] ∧ loc.latitude = 10 ∧
      loc.longitude = 20 ∧ loc.slug = slugify [97, 32, 98] ∧
      loc.createdAt = 0 ∧ ∀ r ∈ ([] : List Location), r.id ≠ loc.id :=
  register_then_get_matches ⟨[], 0, 0⟩ ⟨[97, 32, 98], 10, 20⟩
    (by decide) (by simp) (by simp)

/-- C7: for any registered row of a store satisfying the §3 invariants
(stored slug is the slugified name, names pairwise distinct, slugs pairwise
distinct), getting by the slugified name returns the same row as getting by
the name: the lookup matches a key as exact name or as slug candidate. -/
theorem get_by_slug_matches_get_by_name
    (s : DBState) (row : Location)
    (hmem : row ∈ s.rows)
    (hslug : ∀ r ∈ s.rows, r.slug = slugify r.name)
    (hnames : s.rows.Pairwise fun a b => a.name ≠ b.name)
    (hslugs : s.rows.Pairwise fun a b => a.slug ≠ b.slug) :
    getLocationByName s (slugify row.name) = getLocationByName s row.name ∧
    getLocationByName s row.name = .ok row := by
  have hnameF := hnames.forall fun _ _ h => fun e => h e.symm
  have hslugF := hslugs.forall fun _ _ h => fun e => h e.symm
  have hnameU : ∀ x ∈ s.rows, x.name = row.name → x = row := by
    intro x hx he
    by_contra hne
    exact hnameF hx hmem hne he
  have hslugU : ∀ x ∈ s.rows, x.slug = row.slug → x = row := by
    intro x hx he
    by_contra hne
    exact hslugF hx hmem hne he
  have hrowslug : row.slug = slugify row.name := hslug row hmem
  have hfind1 : s.rows.find?
      (fun r => decide (r.name = row.name ∨ r.slug = slugify row.name)) =
      some row := by
    apply find?_eq_some_of_unique hmem
    intro x hx
    simp only [decide_eq_true_eq]
    constructor
    · rintro (h | h)
      · exact hnameU x hx h
      · exact hslugU x hx (h.trans hrowslug.symm)
    · rintro rfl
      exact Or.inl rfl
  have hfind2 : s.rows.find?
      (fun r => decide (r.name = slugify row.name ∨
        r.slug = slugify (slugify row.name))) = some row := by
    apply find?_eq_some_of_unique hmem
    intro x hx
    simp only [decide_eq_true_eq, slugify_idem]
    constructor
    · rintro (h | h)
      · apply hslugU x hx
        rw [hslug x hx, h, slugify_idem, ← hrowslug]
      · exact hslugU x hx (h.trans hrowslug.symm)
    · rintro rfl
      exact Or.inr hrowslug
  constructor
  · unfold getLocationByName
    rw [hfind1, hfind2]
  · unfold getLocationByName
    rw [hfind1]

/-- C7 witness: in a concrete one-row store holding the name "a b" with
slug "a-b", getting by the slugified name and getting by the name agree and
return that row. -/
theorem get_by_slug_witness :
    getLocationByName ⟨[⟨0, [97, 32, 98], [97, 45, 98], 10, 20, 0⟩], 1, 1⟩
        (slugify [97, 32, 98]) =
      getLocationByName ⟨[⟨0, [97, 32, 98], [97, 45, 98], 10, 20, 0⟩], 1, 1⟩
        [97, 32, 98] ∧
    getLocationByName ⟨[⟨0, [97, 32, 98], [97, 45, 98], 10, 20, 0⟩], 1, 1⟩
        [97, 32, 98] =
      .ok ⟨0, [97, 32, 98], [97, 45, 98], 10, 20, 0⟩ :=
  get_by_slug_matches_get_by_name
    ⟨[⟨0, [97, 32, 98], [97, 45, 98], 10, 20, 0⟩], 1, 1⟩
    ⟨0, [97, 32, 98], [97, 45, 98], 10, 20, 0⟩
    (by simp) (by decide) (by simp) (by simp)

end Leeta
